import Mathlib

/-!
Shallow embedding of the todo text-format engine (`src/file_format/tokenizer.rs`,
`src/file_format/parser/mod.rs`, `src/file_format/parser/error.rs`, `src/config.rs`).

Modelling conventions:
* Rust `VecDeque<char>` / `VecDeque<Token>` become `List Char` / `List Token`;
  `pop_front` is pattern matching on the head.
* The Rust functions mutate their queue in place; the embedding passes the
  queue explicitly and returns the remaining queue, including on error paths,
  so that partial consumption is observable.
* The tokenizer loops can loop forever or panic (`.unwrap()` on an empty
  queue, an explicit `panic!`).  Every loop therefore takes a fuel argument
  and the result type is wrapped in `Option`: `none` means
  "panicked or out of fuel"; the original code has no fuel, so a result that
  is `some` at one fuel is the result of the Rust run, and a result that is
  `none` at every fuel is a run that panics or never terminates.
* Rust `HashMap<String, String>` is an association list with first-match
  lookup, `HashSet<String>` a list with membership; both faithful for the
  unique-key maps the config layer produces.
* `ParserErrorStack` frames carry a rule name plus `file!/line!/column!`
  source metadata; the embedding keeps the rule name and drops the
  source-location metadata, which no claim mentions.
-/

/-- The backtick character, written by code point to keep it out of the
source text. -/
def btick : Char := Char.ofNat 96

/-- `tokenizer.rs`: the `Handler` newtype around the raw handler string. -/
structure TkHandler where
  str : String

/-- `tokenizer.rs`: inline-markup token tree (`TextToken`). -/
inductive TextToken where
  | verbatim (ts : List TextToken)
  | underline (ts : List TextToken)
  | crossed (ts : List TextToken)
  | bold (ts : List TextToken)
  | italic (ts : List TextToken)
  | link (name : String) (handler : TkHandler) (path : String)
  | textExtra (c : Char) (ts : List TextToken)
  | text (s : String)

/-- `tokenizer.rs`: line-level token (`Token`).  `bullet`/`text` carry the
inline-lexed payload (`TextTokens`). -/
inductive Token where
  | bracketOpen
  | inside (s : String)
  | bracketClose
  | heading (s : String)
  | bullet (ts : List TextToken)
  | text (ts : List TextToken)
  | newline

/-- `matches!(last, Token::Newline)` used as the guard of the line-start
arms of `Tokens::from_str`. -/
def Token.isNewline : Token → Bool
  | .newline => true
  | _ => false

/-- The character set `['`', '_', '-', '*', '/', '\n', '|']` that ends a
plain-text run in `TextToken::from_vecdeque`. -/
def specialChars : List Char := [btick, '_', '-', '*', '/', '\n', '|']

/-- `matches!(&token, Self::Text(text) if text.is_empty())` from the
verbatim arm of `TextToken::from_vecdeque`. -/
def TextToken.isEmptyText : TextToken → Bool
  | .text s => s.isEmpty
  | _ => false

/-- The `for (i, ch) in chars.iter().enumerate()` lookahead scan of the
link arm of `TextToken::from_vecdeque`.  `b0 b1 b2` are `inorder[0..2]`;
the result is `true` exactly when the scan breaks with all four flags set
(a `']'` with `b0 && b1` whose next character is `'|'`), `false` when a
newline is hit first or the characters run out. -/
def linkScan : List Char → Bool → Bool → Bool → Bool
  | [], _, _, _ => false
  | c :: rest, b0, b1, b2 =>
    if c = '[' && !b1 && !b2 then linkScan rest true b1 b2
    else if c = ':' && b0 && !b2 then linkScan rest b0 true b2
    else if c = ']' && b0 && b1 then
      if rest.head? = some '|' then true else linkScan rest b0 b1 true
    else if c = '\n' then false
    else linkScan rest b0 b1 b2

/-- `while let Some(ch) = chars.pop_front() { if ch == c { break } buf.push(ch) }`:
split at the first occurrence of `c`, consuming it; if `c` never occurs the
whole queue is consumed. -/
def splitAtChar (c : Char) : List Char → List Char × List Char
  | [] => ([], [])
  | x :: xs =>
    if x = c then ([], xs)
    else
      let (a, b) := splitAtChar c xs
      (x :: a, b)

/-- Split at the first occurrence of `c` when it exists (`some (before, after)`,
`c` consumed), `none` when `c` is absent.  Models the heading arm of
`Tokens::from_str`, whose `while let ... pop_front` pushes the tokens only
when it actually meets a `'\n'`. -/
def findSplit (c : Char) : List Char → Option (List Char × List Char)
  | [] => none
  | x :: xs =>
    if x = c then some ([], xs)
    else (findSplit c xs).map (fun p => (x :: p.1, p.2))

mutual
/-- `TextToken::from_vecdeque` (tokenizer.rs, lines 129-297).  Returns the
parsed span and the remaining characters.  `none` models the `.unwrap()`
panic on an empty queue, the `panic!` in the link arm, or fuel exhaustion
(the delimiter loops in the source can spin without consuming input; the
fuel argument comes last and every recursive call decrements it). -/
def TextToken.fromVecdeque : List Char → Nat → Option (TextToken × List Char)
  | [], _ => none
  | c :: cs, fuel =>
    if c = '\n' then some (.text "", c :: cs)
    else
      match fuel with
      | 0 => none
      | Nat.succ fl =>
        if c = btick then
          (TextToken.fromVecdeque cs fl).bind fun tc =>
            spanLoop btick ['_', '-', '*', '/', '|'] TextToken.verbatim true [tc.1] tc.2 fl
        else if c = '_' then
          (TextToken.fromVecdeque cs fl).bind fun tc =>
            spanLoop '_' [btick, '-', '*', '/', '|'] TextToken.underline false [tc.1] tc.2 fl
        else if c = '-' then
          (TextToken.fromVecdeque cs fl).bind fun tc =>
            spanLoop '-' [btick, '_', '*', '/', '|'] TextToken.crossed false [tc.1] tc.2 fl
        else if c = '*' then
          (TextToken.fromVecdeque cs fl).bind fun tc =>
            spanLoop '*' [btick, '_', '-', '/', '|'] TextToken.bold false [tc.1] tc.2 fl
        else if c = '/' then
          (TextToken.fromVecdeque cs fl).bind fun tc =>
            spanLoop '/' [btick, '_', '-', '*', '|'] TextToken.italic false [tc.1] tc.2 fl
        else if c = '|' then
          if linkScan cs false false false then
            let (nm, r1) := splitAtChar '[' cs
            let (handler, r2) := splitAtChar ':' r1
            let (path, r3) := splitAtChar ']' r2
            match r3 with
            | '|' :: r4 =>
              some (.link (String.mk nm) ⟨String.mk handler⟩ (String.mk path), r4)
            | _ => none
          else
            (TextToken.fromVecdeque cs fl).map fun tc => (.textExtra '|' [tc.1], tc.2)
        else
          some (.text (String.mk (c :: cs.takeWhile (fun d => !(specialChars.contains d)))),
                cs.dropWhile (fun d => !(specialChars.contains d)))

/-- The `while let Some(char) = chars.get(0)` loop shared by the five
delimiter arms of `TextToken::from_vecdeque`: `d` is the opening delimiter,
`others` the five delimiter characters other than `d`, `mk` the constructor
returned on a real closer (or end of input), `flag` the verbatim-only
re-push of an empty text child as `TextExtra(ch, [])`.  A front character
matching no arm loops without consuming anything (a stall); only fuel ends
it. -/
def spanLoop : Char → List Char → (List TextToken → TextToken) → Bool →
    List TextToken → List Char → Nat → Option (TextToken × List Char)
  | _, _, mk, _, acc, [], _ => some (mk acc, [])
  | d, others, mk, flag, acc, c :: cs, fuel =>
    if c = '\n' then some (.textExtra d acc, c :: cs)
    else if c = d then some (mk acc, cs)
    else if others.contains c then
      match fuel with
      | 0 => none
      | Nat.succ fl =>
        (TextToken.fromVecdeque (c :: cs) fl).bind fun tc =>
          spanLoop d others mk flag
            (if flag && tc.1.isEmptyText then acc ++ [.textExtra c [], tc.1] else acc ++ [tc.1])
            tc.2 fl
    else
      match fuel with
      | 0 => none
      | Nat.succ fl => spanLoop d others mk flag acc (c :: cs) fl
end

/-- `TextTokens::from_vecdeque` (tokenizer.rs, lines 307-318): inline-lex a
whole line, stopping (without consuming) at a newline or at end of input. -/
def TextTokens.fromVecdeque : List Char → Nat → Option (List TextToken × List Char)
  | [], _ => some ([], [])
  | c :: cs, fuel =>
    if c = '\n' then some ([], c :: cs)
    else
      match fuel with
      | 0 => none
      | Nat.succ fl =>
        (TextToken.fromVecdeque (c :: cs) fl).bind fun tc =>
          (TextTokens.fromVecdeque tc.2 fl).map fun p => (tc.1 :: p.1, p.2)

/-- `<Tokens as FromStr>::from_str` (tokenizer.rs, lines 27-105) as the
recursion over the unconsumed characters; `last` is the `last` variable
(initially `Token::Newline`).  The Rust function returns `Ok` whenever it
returns; `none` here is a panic inside inline lexing or fuel exhaustion. -/
def tokensFromStr : List Char → Token → Nat → Option (List Token)
  | [], _, _ => some []
  | c :: cs, last, fuel =>
    match fuel with
    | 0 => none
    | Nat.succ fl =>
      if c = '[' && last.isNewline then
        let cs1 := cs.dropWhile (fun d => d = ' ')
        let (inside, rest) := splitAtChar ']' cs1
        (tokensFromStr rest .bracketClose fl).map
          (fun ts => .bracketOpen :: .inside (String.mk inside) :: .bracketClose :: ts)
      else if c = '#' && last.isNewline then
        (findSplit '\n' (cs.dropWhile (fun d => d = ' '))).elim (some [])
          (fun p => (tokensFromStr p.2 .newline fl).map
            (fun ts => .heading (String.mk p.1) :: .newline :: ts))
      else if c = '\n' then
        (tokensFromStr cs .newline fl).map (fun ts => .newline :: ts)
      else if c = '-' then
        (TextTokens.fromVecdeque (cs.dropWhile (fun d => d = ' ')) fl).bind fun tr =>
          (tokensFromStr tr.2 (.bullet []) fl).map (fun ts => .bullet tr.1 :: ts)
      else if c = ' ' then
        tokensFromStr cs last fl
      else
        (TextTokens.fromVecdeque ((c :: cs).dropWhile (fun d => d = ' ')) fl).bind fun tr =>
          (tokensFromStr tr.2 (.text []) fl).map (fun ts => .text tr.1 :: ts)

/-- Lexing entry point: `s.parse::<Tokens>()` followed by `to_vecdeque`. -/
def lex (fuel : Nat) (s : String) : Option (List Token) :=
  tokensFromStr s.data .newline fuel

/-! ## Parser data model (`parser/mod.rs`, `parser/error.rs`, `config.rs`) -/

/-- `error.rs`: the terminal parse-error cause (`Error`). -/
inductive Error where
  | noTokens
  | other (msg : String)
  | expectedV (expected : List String) (got : Token)

/-- `error.rs`: `ParserError` — the cause plus the ordered frame stack.
Frames are pushed at the end as the error unwinds, so the list reads
innermost rule first.  Only the frame's rule name is kept (see header). -/
structure ParserError where
  stack : List String
  err : Error

/-- `err.push(ParserErrorStack::new(name, ...))` from the `error!` macro. -/
def ParserError.pushFrame (name : String) (e : ParserError) : ParserError :=
  { e with stack := e.stack ++ [name] }

/-- `config.rs`: the `todo_state_ops` table (`TodoStateOps`). -/
structure TodoStateOps where
  default : String
  brackets : Bool

/-- `config.rs`: the fields of `Config` the text-format engine reads
(`template`/`directory`/`editor` only steer the surrounding I/O layer). -/
structure Config where
  bullet_point : Option String
  todo_state_ops : Option TodoStateOps
  todo_state : List (String × String)
  link_handlers : List String

/-- The `error!($func, $val, [$pats])` macro arm: pop the front token, check
it against the expected patterns (given by `pred`), and build the
`NoTokens` / `ExpectedV` error with a single frame otherwise.  The popped
token is consumed even when it fails the check. -/
def popTok (frame : String) (expected : List String) (pred : Token → Bool) :
    List Token → Except ParserError Token × List Token
  | [] => (.error ⟨[frame], .noTokens⟩, [])
  | t :: rest =>
    if pred t then (.ok t, rest)
    else (.error ⟨[frame], .expectedV expected t⟩, rest)

/-- `parser/mod.rs`: resolved todo state (`TodoState`). -/
inductive TodoState where
  | defined (s : String)
  | other (s : String)

/-- The string both `TodoState` variants carry. -/
def TodoState.str : TodoState → String
  | .defined s => s
  | .other s => s

/-- `TodoState::empty`. -/
def TodoState.empty (st : TodoState) : Bool :=
  st.str.isEmpty

/-- `parser/mod.rs`: resolved link handler (`Handler`). -/
inductive Handler where
  | custom (s : String)
  | unknown (s : String)

/-- `From<(tokenizer::Handler, &Config)> for Handler`: a handler name in
`config.link_handlers` is `Custom`, anything else `Unknown`. -/
def Handler.fromTk (cfg : Config) (h : TkHandler) : Handler :=
  if cfg.link_handlers.contains h.str then .custom h.str else .unknown h.str

/-- `parser/mod.rs`: inline span of the document tree (`TextOp`). -/
inductive TextOp where
  | verbatim (ts : List TextOp)
  | underline (ts : List TextOp)
  | crossed (ts : List TextOp)
  | bold (ts : List TextOp)
  | italic (ts : List TextOp)
  | link (name : String) (handler : Handler) (path : String)
  | textExtra (c : Char) (ts : List TextOp)
  | normal (s : String)

mutual
/-- `From<(TextToken, &Config)> for TextOp`. -/
def TextOp.fromToken (cfg : Config) : TextToken → TextOp
  | .verbatim ts => .verbatim (TextOp.fromTokenList cfg ts)
  | .underline ts => .underline (TextOp.fromTokenList cfg ts)
  | .crossed ts => .crossed (TextOp.fromTokenList cfg ts)
  | .bold ts => .bold (TextOp.fromTokenList cfg ts)
  | .italic ts => .italic (TextOp.fromTokenList cfg ts)
  | .link name h path => .link name (Handler.fromTk cfg h) path
  | .textExtra c ts => .textExtra c (TextOp.fromTokenList cfg ts)
  | .text s => .normal s

/-- Elementwise `TextOp::from` over a span list. -/
def TextOp.fromTokenList (cfg : Config) : List TextToken → List TextOp
  | [] => []
  | t :: ts => TextOp.fromToken cfg t :: TextOp.fromTokenList cfg ts
end

mutual
/-- `impl Display for TextOp` (`to_string`): re-emit delimiters around the
children; a link renders as `|name|` only; `TextExtra` re-emits the bare
delimiter before its children. -/
def TextOp.render : TextOp → String
  | .verbatim ts => String.mk [btick] ++ TextOp.renderList ts ++ String.mk [btick]
  | .underline ts => "_" ++ TextOp.renderList ts ++ "_"
  | .crossed ts => "-" ++ TextOp.renderList ts ++ "-"
  | .bold ts => "*" ++ TextOp.renderList ts ++ "*"
  | .italic ts => "/" ++ TextOp.renderList ts ++ "/"
  | .link name _ _ => "|" ++ name ++ "|"
  | .textExtra c ts => String.mk [c] ++ TextOp.renderList ts
  | .normal s => s

/-- `.map(to_string).join("")` over child spans. -/
def TextOp.renderList : List TextOp → String
  | [] => ""
  | t :: ts => TextOp.render t ++ TextOp.renderList ts
end

/-- `parser/mod.rs`: `Text` — a sequence of inline spans. -/
structure Text where
  ops : List TextOp

/-- `Text::check`: the front token is `Text(_)` or `Bullet(_)`. -/
def Text.check (ts : List Token) : Bool :=
  match ts with
  | .text _ :: _ => true
  | .bullet _ :: _ => true
  | _ => false

/-- `Text::parse`: pop a `Bullet`/`Text` token and convert its payload. -/
def Text.parse (cfg : Config) : List Token → Except ParserError Text × List Token
  | [] => (.error ⟨["Text"], .noTokens⟩, [])
  | t :: rest =>
    match t with
    | .bullet ops => (.ok ⟨TextOp.fromTokenList cfg ops⟩, rest)
    | .text ops => (.ok ⟨TextOp.fromTokenList cfg ops⟩, rest)
    | _ => (.error ⟨["Text"], .expectedV ["Token :: Bullet(_)", "Token :: Text(_)"] t⟩, rest)

/-- `Text::print`: concatenation of the rendered spans (config unused). -/
def Text.print (_cfg : Config) (t : Text) : String :=
  TextOp.renderList t.ops

/-- `TodoState::parse`: pop an `Inside` token and resolve the raw string
against `config.todo_state` — hit gives `Defined(mapped)`, miss
`Other(raw)`. -/
def TodoState.parse (cfg : Config) : List Token → Except ParserError TodoState × List Token
  | [] => (.error ⟨["TodoState"], .noTokens⟩, [])
  | t :: rest =>
    match t with
    | .inside s =>
      match cfg.todo_state.lookup s with
      | some mapped => (.ok (.defined mapped), rest)
      | none => (.ok (.other s), rest)
    | _ => (.error ⟨["TodoState"], .expectedV ["Token :: Inside(_)"] t⟩, rest)

/-- `TodoState::print`: empty state falls back to `todo_state_ops.default`
(or a single space); the `brackets` flag (default `true`) wraps the result
in `[...]`. -/
def TodoState.print (cfg : Config) (st : TodoState) : String :=
  let brackets := match cfg.todo_state_ops with
    | some ops => ops.brackets
    | none => true
  let s := if st.str.isEmpty then
      match cfg.todo_state_ops with
      | some ops => ops.default
      | none => " "
    else st.str
  if brackets then "[" ++ s ++ "]" else s

/-- `parser/mod.rs`: `Todo`. -/
structure Todo where
  state : TodoState
  description : Text

/-- `Todo::check`: the front token is `BracketOpen`. -/
def Todo.check (ts : List Token) : Bool :=
  match ts with
  | .bracketOpen :: _ => true
  | _ => false

/-- `Todo::parse`: `BracketOpen`, `TodoState`, `BracketClose`, `Text`,
`Newline` in sequence, wrapping sub-rule errors with a `Todo` frame. -/
def Todo.parse (cfg : Config) (ts : List Token) : Except ParserError Todo × List Token :=
  match popTok "Todo" ["Token :: BracketOpen"] (fun t => match t with | .bracketOpen => true | _ => false) ts with
  | (.error e, ts1) => (.error e, ts1)
  | (.ok _, ts1) =>
    match TodoState.parse cfg ts1 with
    | (.error e, ts2) => (.error (e.pushFrame "Todo"), ts2)
    | (.ok state, ts2) =>
      match popTok "Todo" ["Token :: BracketClose"] (fun t => match t with | .bracketClose => true | _ => false) ts2 with
      | (.error e, ts3) => (.error e, ts3)
      | (.ok _, ts3) =>
        match Text.parse cfg ts3 with
        | (.error e, ts4) => (.error (e.pushFrame "Todo"), ts4)
        | (.ok description, ts4) =>
          match popTok "Todo" ["Token :: Newline"] Token.isNewline ts4 with
          | (.error e, ts5) => (.error e, ts5)
          | (.ok _, ts5) => (.ok ⟨state, description⟩, ts5)

/-- `Todo::print`: recomputes the bracket flag and default state itself and
then wraps `self.state.print(config)` (which already brackets a non-empty
state) in another pair of brackets when the flag is set. -/
def Todo.print (cfg : Config) (todo : Todo) : String :=
  let brackets := match cfg.todo_state_ops with
    | some ops => ops.brackets
    | none => true
  let state := if todo.state.empty then
      match cfg.todo_state_ops with
      | some ops => ops.default
      | none => " "
    else TodoState.print cfg todo.state
  if brackets then "[" ++ state ++ "] " ++ Text.print cfg todo.description
  else state ++ " " ++ Text.print cfg todo.description

/-- `parser/mod.rs`: `Bullet` (the `bullet` flag is always `true` after
parsing). -/
structure Bullet where
  bullet : Bool
  text : Text

/-- `Bullet::check`: the front token is `Bullet(_)`. -/
def Bullet.check (ts : List Token) : Bool :=
  match ts with
  | .bullet _ :: _ => true
  | _ => false

/-- `Bullet::parse`: a `Text` parse wrapped with a `Bullet` frame. -/
def Bullet.parse (cfg : Config) (ts : List Token) : Except ParserError Bullet × List Token :=
  match Text.parse cfg ts with
  | (.error e, ts1) => (.error (e.pushFrame "Bullet"), ts1)
  | (.ok text, ts1) => (.ok ⟨true, text⟩, ts1)

/-- `Bullet::print`: configured bullet-point string (default `"- "`). -/
def Bullet.print (cfg : Config) (b : Bullet) : String :=
  match cfg.bullet_point with
  | some bullet => bullet ++ " " ++ Text.print cfg b.text
  | none => "- " ++ Text.print cfg b.text

/-- `parser/mod.rs`: `PrintText` — a paragraph `Text` entry. -/
structure PrintText where
  text : Text

/-- `PrintText::parse`: a bare `Text` parse (no extra frame). -/
def PrintText.parse (cfg : Config) (ts : List Token) : Except ParserError PrintText × List Token :=
  match Text.parse cfg ts with
  | (.error e, ts1) => (.error e, ts1)
  | (.ok text, ts1) => (.ok ⟨text⟩, ts1)

/-- `PrintText::print` re-flows the paragraph with
`textwrap::indent(textwrap::fill(s, termwidth() - 4), "    ")`; `fill`
abstracts that external, terminal-width-dependent transformation. -/
def PrintText.print (fill : String → String) (cfg : Config) (pt : PrintText) : String :=
  fill (Text.print cfg pt.text) ++ "\n"

/-- `parser/mod.rs`: a heading-body entry (`UnderHeading`). -/
inductive UnderHeading where
  | todo (t : Todo)
  | bullet (b : Bullet)
  | text (t : PrintText)

/-- `parser/mod.rs`: `Heading`. -/
structure Heading where
  name : String
  body : List UnderHeading

/-- `Heading::check` (also `File::check`): the front token is `Heading(_)`. -/
def Heading.check (ts : List Token) : Bool :=
  match ts with
  | .heading _ :: _ => true
  | _ => false

/-- The `loop` of `Heading::parse`: stop at end of input or pop a blank-line
`Newline`; otherwise try `Todo`, `Bullet`, `Text`, `Heading` in that order —
a `Heading` front is the "Can't have a heading in a heading" error, and a
front matching none of the four checks loops again without consuming
anything (only fuel ends that stall). -/
def Heading.parseBody (cfg : Config) :
    Nat → List UnderHeading → List Token →
    Option (Except ParserError (List UnderHeading) × List Token)
  | _, acc, [] => some (.ok acc, [])
  | fuel, acc, t :: rest =>
    if t.isNewline then some (.ok acc, rest)
    else
      match fuel with
      | 0 => none
      | Nat.succ fl =>
        let ts := t :: rest
        if Todo.check ts then
          match Todo.parse cfg ts with
          | (.error e, ts1) => some (.error (e.pushFrame "Heading"), ts1)
          | (.ok todo, ts1) => Heading.parseBody cfg fl (acc ++ [.todo todo]) ts1
        else if Bullet.check ts then
          match Bullet.parse cfg ts with
          | (.error e, ts1) => some (.error (e.pushFrame "Heading"), ts1)
          | (.ok b, ts1) =>
            match popTok "Heading" ["Token :: Newline"] Token.isNewline ts1 with
            | (.error e, ts2) => some (.error e, ts2)
            | (.ok _, ts2) => Heading.parseBody cfg fl (acc ++ [.bullet b]) ts2
        else if Text.check ts then
          match PrintText.parse cfg ts with
          | (.error e, ts1) => some (.error (e.pushFrame "Heading"), ts1)
          | (.ok pt, ts1) =>
            match popTok "Heading" ["Token :: Newline"] Token.isNewline ts1 with
            | (.error e, ts2) => some (.error e, ts2)
            | (.ok _, ts2) => Heading.parseBody cfg fl (acc ++ [.text pt]) ts2
        else if Heading.check ts then
          some (.error ⟨["Heading"], .other "Can\x27t have a heading in a heading"⟩, ts)
        else
          Heading.parseBody cfg fl acc ts

/-- `Heading::parse`: pop the `Heading` token for the name, expect a
`Newline`, then run the body loop. -/
def Heading.parse (cfg : Config) (fuel : Nat) :
    List Token → Option (Except ParserError Heading × List Token)
  | [] => some (.error ⟨["Heading"], .noTokens⟩, [])
  | .heading name :: ts1 =>
    match popTok "Heading" ["Token :: Newline"] Token.isNewline ts1 with
    | (.error e, ts2) => some (.error e, ts2)
    | (.ok _, ts2) =>
      match Heading.parseBody cfg fuel [] ts2 with
      | none => none
      | some (.error e, ts3) => some (.error e, ts3)
      | some (.ok body, ts3) => some (.ok ⟨name, body⟩, ts3)
  | t :: ts1 => some (.error ⟨["Heading"], .expectedV ["Token :: Heading(_)"] t⟩, ts1)

/-- `Heading::print`: the name line (no `#` marker), then each body entry —
todos and bullets indented four spaces with a trailing newline, paragraph
text via `PrintText::print`. -/
def Heading.print (fill : String → String) (cfg : Config) (h : Heading) : String :=
  h.name ++ "\n" ++
    (h.body.map (fun b =>
      match b with
      | .todo todo => "    " ++ Todo.print cfg todo ++ "\n"
      | .bullet bl => "    " ++ Bullet.print cfg bl ++ "\n"
      | .text pt => PrintText.print fill cfg pt)).foldr (· ++ ·) ""

/-- `parser/mod.rs`: `File` — the ordered headings. -/
structure File where
  headings : List Heading

/-- The `while !tokens.is_empty()` loop of `File::parse`, wrapping each
`Heading::parse` error with a `File` frame. -/
def File.parseLoop (cfg : Config) :
    Nat → List Heading → List Token →
    Option (Except ParserError (List Heading) × List Token)
  | _, acc, [] => some (.ok acc, [])
  | 0, _, _ => none
  | Nat.succ fl, acc, ts =>
    match Heading.parse cfg fl ts with
    | none => none
    | some (.error e, ts1) => some (.error (e.pushFrame "File"), ts1)
    | some (.ok h, ts1) => File.parseLoop cfg fl (acc ++ [h]) ts1

/-- `File::parse`. -/
def File.parse (cfg : Config) (fuel : Nat) (ts : List Token) :
    Option (Except ParserError File × List Token) :=
  match File.parseLoop cfg fuel [] ts with
  | none => none
  | some (.error e, ts1) => some (.error e, ts1)
  | some (.ok hs, ts1) => some (.ok ⟨hs⟩, ts1)

/-- `File::print`: heading renderings joined with `"\n"`. -/
def File.print (fill : String → String) (cfg : Config) (f : File) : String :=
  String.intercalate "\n" (f.headings.map (Heading.print fill cfg))

/-! ## Shared concrete configurations and helper lemmas -/

/-- A configuration with nothing set (empty alias table, no state options,
no bullet point, no handlers). -/
def cfg0 : Config := ⟨none, none, [], []⟩

/-- The configuration of the state-alias test fixture: alias table
`{"x" : "DONE"}`. -/
def cfgX : Config := ⟨none, none, [("x", "DONE")], []⟩

/-- The heading-body loop makes no progress on a front `Inside` token: the
same call with less fuel. -/
theorem parseBody_stall_inside (cfg : Config) :
    ∀ (fl : Nat) (acc : List UnderHeading) (s : String) (rest : List Token),
    Heading.parseBody cfg fl acc (.inside s :: rest) = none := by
  intro fl
  induction fl with
  | zero => intro acc s rest; rfl
  | succ m ih => intro acc s rest; exact ih acc s rest

/-- The heading-body loop makes no progress on a front `BracketClose` token. -/
theorem parseBody_stall_bracketClose (cfg : Config) :
    ∀ (fl : Nat) (acc : List UnderHeading) (rest : List Token),
    Heading.parseBody cfg fl acc (.bracketClose :: rest) = none := by
  intro fl
  induction fl with
  | zero => intro acc rest; rfl
  | succ m ih => intro acc rest; exact ih acc rest

/-- C3: inside an open heading body, a front token matched by none of the
`Todo`/`Bullet`/`Text`/`Heading` check predicates (a bare `Inside` or
`BracketClose` token) makes the `Heading::parse` loop consume nothing: the
iteration returns to the identical state, so the loop never exits — in the
fuel model the run is `none` at every fuel. -/
theorem c3_heading_body_stall :
    ∀ (cfg : Config) (fl : Nat) (acc : List UnderHeading) (s : String) (rest : List Token),
    Heading.parseBody cfg fl acc (.inside s :: rest) = none
    ∧ Heading.parseBody cfg fl acc (.bracketClose :: rest) = none
    ∧ Heading.parseBody cfg (Nat.succ fl) acc (.inside s :: rest)
        = Heading.parseBody cfg fl acc (.inside s :: rest) := by
  intro cfg fl acc s rest
  exact ⟨parseBody_stall_inside cfg fl acc s rest,
         parseBody_stall_bracketClose cfg fl acc rest, rfl⟩

/-- C4: a `Heading` token in the front of an open heading body makes the
body loop — and hence `Heading::parse` — return the structural-violation
error `Other("Can't have a heading in a heading")` with a `Heading` frame,
leaving the offending token in the queue, regardless of configuration,
remaining fuel, body parsed so far, or following tokens. -/
theorem c4_nested_heading_rejection :
    ∀ (cfg : Config) (fl : Nat) (acc : List UnderHeading) (nm s : String) (rest : List Token),
    Heading.parseBody cfg (Nat.succ fl) acc (.heading s :: rest)
      = some (.error ⟨["Heading"], .other "Can\x27t have a heading in a heading"⟩, .heading s :: rest)
    ∧ Heading.parse cfg (Nat.succ fl) (.heading nm :: .newline :: .heading s :: rest)
      = some (.error ⟨["Heading"], .other "Can\x27t have a heading in a heading"⟩, .heading s :: rest) := by
  intro cfg fl acc nm s rest
  exact ⟨rfl, rfl⟩

/-- C6: inline lexing a verbatim span opened with a backtick and never
closed before the newline yields the single fallback span
`TextExtra('`', [Text "abc"])` (converted to `TextExtra('`', [Normal "abc"])`
in the document tree), not a verbatim span and not a failure; the newline
stays in the queue. -/
theorem c6_unterminated_span_fallback :
    TextTokens.fromVecdeque (btick :: "abc\n".data) 64
      = some ([.textExtra btick [.text "abc"]], ['\n'])
    ∧ TextOp.fromTokenList cfg0 [.textExtra btick [.text "abc"]]
      = [.textExtra btick [.normal "abc"]] :=
  ⟨rfl, rfl⟩

/-- C10: a failing parse leaves the token queue partially consumed: on
`[Heading "h", Newline, BracketOpen, Newline, Text []]` the parse fails
inside `TodoState` (with the frame stack recording the rule path) and the
queue handed back holds only the final `Text` token — the tokens popped on
the way to the error are not restored. -/
theorem c10_parse_not_atomic :
    File.parse cfg0 64 [.heading "h", .newline, .bracketOpen, .newline, .text []]
      = some (.error ⟨["TodoState", "Todo", "Heading", "File"],
                      .expectedV ["Token :: Inside(_)"] .newline⟩, [.text []])
    ∧ [Token.text []] ≠ [.heading "h", .newline, .bracketOpen, .newline, .text []] := by
  refine ⟨rfl, fun h => ?_⟩
  simpa using congrArg List.length h

/-- `TextToken::from_vecdeque` panics (`chars.get(0).unwrap()`) on an empty
queue, at every fuel. -/
theorem fromVecdeque_nil : ∀ h : Nat, TextToken.fromVecdeque [] h = none := by
  intro h
  cases h <;> rfl

/-- The explicit `panic!` of the link arm: the lookahead scan over
`a[b:c]d]|` succeeds (the second `]` is followed by `|`), but the re-scan
consumes the name/handler/path up to the *first* `]` and then finds `d`
instead of `|`. -/
theorem fromVecdeque_linkPanic (g : Nat) :
    TextToken.fromVecdeque
      ('|' :: 'a' :: '[' :: 'b' :: ':' :: 'c' :: ']' :: 'd' :: ']' :: '|' :: []) g = none := by
  cases g <;> rfl

/-- The verbatim loop stalls forever on a front plain character (here `b`):
no arm of the `while` consumes it, so the state repeats at every
iteration. -/
theorem spanLoop_stall_b : ∀ (n : Nat) (acc : List TextToken),
    spanLoop btick ['_', '-', '*', '/', '|'] TextToken.verbatim true acc
      ('b' :: '\n' :: []) n = none := by
  intro n
  induction n with
  | zero => intro acc; rfl
  | succ m ih => intro acc; exact ih acc

/-- On the stall input the inline span lexer never returns. -/
theorem fromVecdeque_stall (m : Nat) :
    TextToken.fromVecdeque (btick :: '_' :: 'a' :: '_' :: 'b' :: '\n' :: []) (m+3) = none :=
  spanLoop_stall_b (m+2) [.underline [.text "a"]]

/-- On the stall input the line inline lexer never returns. -/
theorem textTokens_stall (m : Nat) :
    TextTokens.fromVecdeque (btick :: '_' :: 'a' :: '_' :: 'b' :: '\n' :: []) (m+4) = none := by
  have h1 : TextTokens.fromVecdeque (btick :: '_' :: 'a' :: '_' :: 'b' :: '\n' :: []) (m+4)
      = (TextToken.fromVecdeque (btick :: '_' :: 'a' :: '_' :: 'b' :: '\n' :: []) (m+3)).bind
          (fun tc => (TextTokens.fromVecdeque tc.2 (m+3)).map fun p => (tc.1 :: p.1, p.2)) := rfl
  rw [h1, fromVecdeque_stall m]
  rfl

/-- On the stall input the whole tokenizer never returns. -/
theorem tokensFromStr_stall (m : Nat) :
    tokensFromStr (btick :: '_' :: 'a' :: '_' :: 'b' :: '\n' :: []) .newline (m+5) = none := by
  have h1 : tokensFromStr (btick :: '_' :: 'a' :: '_' :: 'b' :: '\n' :: []) .newline (m+5)
      = (TextTokens.fromVecdeque (btick :: '_' :: 'a' :: '_' :: 'b' :: '\n' :: []) (m+4)).bind
          (fun tr => (tokensFromStr tr.2 (.text []) (m+4)).map (fun ts => .text tr.1 :: ts)) := rfl
  rw [h1, textTokens_stall m]
  rfl

/-- C2: the lexer is not total.  At every fuel, lexing fails on: a lone
backtick (the recursive `from_vecdeque` call hits `chars.get(0).unwrap()`
on the emptied queue and panics); `|a[b:c]d]|` (the link arm's explicit
`panic!`); and `` `_a_b`` + newline (the verbatim loop stalls forever on
the plain `b` after the nested underline span closes — a divergence). -/
theorem c2_lexer_not_total :
    (∀ fuel, lex fuel (String.mk [btick]) = none)
    ∧ (∀ fuel, lex fuel "|a[b:c]d]|" = none)
    ∧ (∀ fuel, lex fuel (String.mk (btick :: "_a_b\n".data)) = none) := by
  refine ⟨fun fuel => ?_, fun fuel => ?_, fun fuel => ?_⟩
  · match fuel with
    | 0 => rfl
    | 1 => rfl
    | 2 => rfl
    | Nat.succ (Nat.succ (Nat.succ h)) =>
      have h1 : lex (Nat.succ (Nat.succ (Nat.succ h))) (String.mk [btick])
          = ((((TextToken.fromVecdeque [] h).bind fun tc =>
                spanLoop btick ['_', '-', '*', '/', '|'] TextToken.verbatim true
                  [tc.1] tc.2 h).bind fun tc =>
                (TextTokens.fromVecdeque tc.2 (Nat.succ h)).map fun p =>
                  (tc.1 :: p.1, p.2)).bind fun tr =>
                (tokensFromStr tr.2 (.text []) (Nat.succ (Nat.succ h))).map fun ts =>
                  Token.text tr.1 :: ts) := rfl
      rw [h1, fromVecdeque_nil]
      rfl
  · match fuel with
    | 0 => rfl
    | 1 => rfl
    | Nat.succ (Nat.succ g) =>
      have h1 : lex (Nat.succ (Nat.succ g)) "|a[b:c]d]|"
          = (((TextToken.fromVecdeque
                ('|' :: 'a' :: '[' :: 'b' :: ':' :: 'c' :: ']' :: 'd' :: ']' :: '|' :: []) g).bind
                fun tc => (TextTokens.fromVecdeque tc.2 g).map fun p =>
                  (tc.1 :: p.1, p.2)).bind fun tr =>
                (tokensFromStr tr.2 (.text []) (Nat.succ g)).map fun ts =>
                  Token.text tr.1 :: ts) := rfl
      rw [h1, fromVecdeque_linkPanic]
      rfl
  · match fuel with
    | 0 => rfl
    | 1 => rfl
    | 2 => rfl
    | 3 => rfl
    | 4 => rfl
    | Nat.succ (Nat.succ (Nat.succ (Nat.succ (Nat.succ m)))) => exact tokensFromStr_stall m

/-! ## Round trip (C1) -/

/-- A document whose single heading is named `#` with an empty body: its
printed form re-parses successfully, to a different tree. -/
def fileHash : File := ⟨[⟨"#", []⟩]⟩

/-- C1 counterexample: `Heading::print` emits the name without the `#`
marker, so `print(fileHash) = "#\n"`, which lexes to `Heading("")` and
parses back to a file whose heading is named `""` — the round trip
succeeds but changes the heading name, which is not paragraph-text
whitespace. -/
theorem c1_round_trip_counterexample :
    File.print id cfg0 fileHash = "#\n"
    ∧ lex 64 (File.print id cfg0 fileHash) = some [.heading "", .newline]
    ∧ File.parse cfg0 64 [.heading "", .newline] = some (.ok ⟨[⟨"", []⟩]⟩, [])
    ∧ (⟨[⟨"", []⟩]⟩ : File) ≠ fileHash := by
  refine ⟨rfl, rfl, rfl, fun h => ?_⟩
  have h2 := congrArg (fun f => f.headings.map Heading.name) h
  simp [fileHash] at h2

/-- C1 amended: the round-trip law `parse(lex(print T)) = T` does not hold
in general (the printer drops the `#` heading marker and renders links as
`|name|` only); it does hold for the empty document, for every fill
function, configuration and fuel. -/
theorem c1_round_trip_amended :
    ∀ (fill : String → String) (cfg : Config) (fuel : Nat),
      File.print fill cfg ⟨[]⟩ = ""
      ∧ lex fuel "" = some []
      ∧ File.parse cfg fuel [] = some (.ok ⟨[]⟩, []) := by
  intro fill cfg fuel
  cases fuel <;> exact ⟨rfl, rfl, rfl⟩

/-! ## Todo-state alias resolution (C7) -/

/-- C7: `TodoState::parse` pops the `Inside` token and resolves it against
the alias table — a hit yields `Defined(mapped)`, a miss `Other(raw)`
unchanged; with the table `{"x":"DONE"}`, the line `[x] buy milk` parses to
`Todo{state: Defined "DONE", description: "buy milk"}` and `[y] buy milk`
to `Todo{state: Other "y", ...}`. -/
theorem c7_state_alias_resolution :
    (∀ (cfg : Config) (s m : String) (rest : List Token),
      cfg.todo_state.lookup s = some m →
      TodoState.parse cfg (.inside s :: rest) = (.ok (.defined m), rest))
    ∧ (∀ (cfg : Config) (s : String) (rest : List Token),
      cfg.todo_state.lookup s = none →
      TodoState.parse cfg (.inside s :: rest) = (.ok (.other s), rest))
    ∧ (lex 64 "[x] buy milk\n").map (fun ts => Todo.parse cfgX ts)
        = some (.ok ⟨.defined "DONE", ⟨[.normal "buy milk"]⟩⟩, [])
    ∧ (lex 64 "[y] buy milk\n").map (fun ts => Todo.parse cfgX ts)
        = some (.ok ⟨.other "y", ⟨[.normal "buy milk"]⟩⟩, []) := by
  refine ⟨fun cfg s m rest h => ?_, fun cfg s rest h => ?_, rfl, rfl⟩
  · simp [TodoState.parse, h]
  · simp [TodoState.parse, h]

/-- Witness for C7 at the concrete alias table `{"x":"DONE"}`. -/
theorem c7_state_alias_resolution_witness :
    TodoState.parse cfgX [.inside "x"] = (.ok (.defined "DONE"), [])
    ∧ TodoState.parse cfgX [.inside "q"] = (.ok (.other "q"), []) :=
  ⟨c7_state_alias_resolution.1 cfgX "x" "DONE" [] rfl,
   c7_state_alias_resolution.2.1 cfgX "q" [] rfl⟩

/-! ## Todo printing policy (C8) -/

/-- C8 counterexample: with no state options configured, a `Todo` with
non-empty state `x` prints as `[[x]] d` — `Todo::print` wraps
`TodoState::print`'s already-bracketed rendering in a second pair of
brackets — not as the claimed `[x] d`. -/
theorem c8_todo_print_counterexample :
    Todo.print cfg0 ⟨.other "x", ⟨[.normal "d"]⟩⟩ = "[[x]] d"
    ∧ Todo.print cfg0 ⟨.other "x", ⟨[.normal "d"]⟩⟩ ≠ "[x] d" := by
  constructor
  · rfl
  · intro h
    exact absurd (rfl.trans h) (by decide)

/-- C8 amended: under the bracket policy (flag true or no options), a
non-empty state prints double-bracketed `[[s]]` (the state is bracketed by
`TodoState::print` and bracketed again by `Todo::print`); an empty state
prints once-bracketed `[default]` (or `[ ]` with no options); with the
bracket flag false the state prints bare (`s` or `default`), each followed
by a space and the rendered description. -/
theorem c8_todo_print_amended :
    ∀ (cfg : Config) (st : TodoState) (desc : Text) (dflt : String),
      (cfg.todo_state_ops = none → st.str ≠ "" →
        Todo.print cfg ⟨st, desc⟩ = "[[" ++ st.str ++ "]] " ++ Text.print cfg desc)
      ∧ (cfg.todo_state_ops = none → st.str = "" →
        Todo.print cfg ⟨st, desc⟩ = "[ ] " ++ Text.print cfg desc)
      ∧ (cfg.todo_state_ops = some ⟨dflt, true⟩ → st.str ≠ "" →
        Todo.print cfg ⟨st, desc⟩ = "[[" ++ st.str ++ "]] " ++ Text.print cfg desc)
      ∧ (cfg.todo_state_ops = some ⟨dflt, true⟩ → st.str = "" →
        Todo.print cfg ⟨st, desc⟩ = "[" ++ dflt ++ "] " ++ Text.print cfg desc)
      ∧ (cfg.todo_state_ops = some ⟨dflt, false⟩ → st.str ≠ "" →
        Todo.print cfg ⟨st, desc⟩ = st.str ++ " " ++ Text.print cfg desc)
      ∧ (cfg.todo_state_ops = some ⟨dflt, false⟩ → st.str = "" →
        Todo.print cfg ⟨st, desc⟩ = dflt ++ " " ++ Text.print cfg desc) := by
  intro cfg st desc dflt
  refine ⟨fun h1 h2 => ?_, fun h1 h2 => ?_, fun h1 h2 => ?_, fun h1 h2 => ?_,
          fun h1 h2 => ?_, fun h1 h2 => ?_⟩ <;>
    simp [Todo.print, TodoState.print, TodoState.empty, h1, String.isEmpty_iff, h2,
          String.append_assoc]
  all_goals rw [← String.append_assoc]
  all_goals rfl

/-- Witness for C8 at concrete states, default and bracket flags. -/
theorem c8_todo_print_amended_witness :
    Todo.print cfg0 ⟨.other "x", ⟨[.normal "d"]⟩⟩ = "[[" ++ "x" ++ "]] " ++ "d"
    ∧ Todo.print ⟨none, some ⟨"T", true⟩, [], []⟩ ⟨.other "", ⟨[.normal "d"]⟩⟩
        = "[" ++ "T" ++ "] " ++ "d"
    ∧ Todo.print ⟨none, some ⟨"T", false⟩, [], []⟩ ⟨.other "x", ⟨[.normal "d"]⟩⟩
        = "x" ++ " " ++ "d" :=
  ⟨(c8_todo_print_amended cfg0 (.other "x") ⟨[.normal "d"]⟩ "T").1 rfl (by decide),
   (c8_todo_print_amended ⟨none, some ⟨"T", true⟩, [], []⟩ (.other "") ⟨[.normal "d"]⟩
      "T").2.2.2.1 rfl rfl,
   (c8_todo_print_amended ⟨none, some ⟨"T", false⟩, [], []⟩ (.other "x") ⟨[.normal "d"]⟩
      "T").2.2.2.2.1 rfl (by decide)⟩

/-! ## Heading lexing (C9) -/

/-- `dropWhile` of spaces cannot create a newline. -/
theorem mem_dropWhile_space (s : List Char) (h : '\n' ∉ s) :
    '\n' ∉ s.dropWhile (fun d => d = ' ') := by
  induction s with
  | nil => simp
  | cons c s ih =>
    rw [List.dropWhile_cons]
    by_cases hc : c = ' '
    · rw [if_pos (by simp [hc])]
      exact ih (fun m => h (List.mem_cons_of_mem _ m))
    · rw [if_neg (by simp [hc])]
      exact h

/-- Dropping leading spaces commutes with appending the newline-terminated
remainder of the line. -/
theorem dropWhile_space_append (s rest : List Char) :
    (s ++ '\n' :: rest).dropWhile (fun d => d = ' ')
      = s.dropWhile (fun d => d = ' ') ++ '\n' :: rest := by
  induction s with
  | nil => simp [List.dropWhile_cons]
  | cons c s ih =>
    by_cases hc : c = ' '
    · simp [List.dropWhile_cons, hc, ih]
    · simp [List.dropWhile_cons, hc]

/-- `findSplit` at the first newline of a newline-terminated line. -/
theorem findSplit_append (s rest : List Char) (h : '\n' ∉ s) :
    findSplit '\n' (s ++ '\n' :: rest) = some (s, rest) := by
  induction s with
  | nil => simp [findSplit]
  | cons c s ih =>
    have hc : ¬(c = '\n') := fun e => h (by simp [e])
    simp [findSplit, hc, ih (fun m => h (List.mem_cons_of_mem _ m))]

/-- `findSplit` on a newline-free line finds nothing. -/
theorem findSplit_none (s : List Char) (h : '\n' ∉ s) : findSplit '\n' s = none := by
  induction s with
  | nil => rfl
  | cons c s ih =>
    have hc : ¬(c = '\n') := fun e => h (by simp [e])
    simp [findSplit, hc, ih (fun m => h (List.mem_cons_of_mem _ m))]

/-- C9 counterexample: a heading line that is the last line of the input
and is not newline-terminated produces *no* tokens (`lex "#a" = []`), and
trailing spaces are kept in the heading name (`"# a \n"` gives the name
`"a "`, not `"a"`). -/
theorem c9_heading_lex_counterexample :
    lex 8 "#a" = some []
    ∧ lex 8 "# a \n" = some [.heading "a ", .newline]
    ∧ ("a " : String) ≠ "a" :=
  ⟨rfl, rfl, by decide⟩

/-- C9 amended: `#` at a line start consumes the rest of the line and, when
the line is `'\n'`-terminated, emits `Heading(name)` followed by `Newline`,
where `name` is the line with leading (not trailing) spaces removed; when
the heading line ends at end of input without a newline, the collected text
is discarded and no token is emitted. -/
theorem c9_heading_lex_amended :
    (∀ (s rest : List Char) (fl : Nat), '\n' ∉ s →
      tokensFromStr ('#' :: (s ++ '\n' :: rest)) .newline (Nat.succ fl)
        = (tokensFromStr rest .newline fl).map
            (fun ts => .heading (String.mk (s.dropWhile (fun d => d = ' '))) :: .newline :: ts))
    ∧ (∀ (s : List Char) (fl : Nat), '\n' ∉ s →
      tokensFromStr ('#' :: s) .newline (Nat.succ fl) = some []) := by
  constructor
  · intro s rest fl hn
    have h1 : tokensFromStr ('#' :: (s ++ '\n' :: rest)) .newline (Nat.succ fl)
        = (findSplit '\n' ((s ++ '\n' :: rest).dropWhile (fun d => d = ' '))).elim (some [])
            (fun p => (tokensFromStr p.2 .newline fl).map
              (fun ts => .heading (String.mk p.1) :: .newline :: ts)) := rfl
    rw [h1, dropWhile_space_append, findSplit_append _ _ (mem_dropWhile_space s hn)]
    rfl
  · intro s fl hn
    have h1 : tokensFromStr ('#' :: s) .newline (Nat.succ fl)
        = (findSplit '\n' (s.dropWhile (fun d => d = ' '))).elim (some [])
            (fun p => (tokensFromStr p.2 .newline fl).map
              (fun ts => .heading (String.mk p.1) :: .newline :: ts)) := rfl
    rw [h1, findSplit_none _ (mem_dropWhile_space s hn)]
    rfl

/-- Witness for C9 on the line `# xy ` (newline-terminated and not). -/
theorem c9_heading_lex_amended_witness :
    tokensFromStr ('#' :: ("xy ".data ++ '\n' :: [])) .newline 1
      = some [.heading "xy ", .newline]
    ∧ tokensFromStr ('#' :: "xy".data) .newline 1 = some [] := by
  constructor
  · rw [c9_heading_lex_amended.1 "xy ".data [] 0 (by decide)]
    rfl
  · rw [c9_heading_lex_amended.2 "xy".data 0 (by decide)]

/-! ## Link grammar strictness (C5) -/

/-- The inline span lexer produces no result at any fuel: in the fuel
model this is a run of the Rust `TextToken::from_vecdeque` that panics or
never terminates (a `some` at any fuel would be the Rust result). -/
def InlineLexFails (cs : List Char) : Prop :=
  ∀ fuel, TextToken.fromVecdeque cs fuel = none

/-- The stall input diverges at every fuel, not only from fuel 3 up. -/
theorem fromVecdeque_stall_all :
    ∀ g, TextToken.fromVecdeque (btick :: '_' :: 'a' :: '_' :: 'b' :: '\n' :: []) g = none := by
  intro g
  match g with
  | 0 => rfl
  | 1 => rfl
  | 2 => rfl
  | Nat.succ (Nat.succ (Nat.succ m)) => exact fromVecdeque_stall m

/-- C5 counterexample: the claim's universal part fails.  On `` |`_a_b ``
followed by a newline the link lookahead scan fails at the newline, so the
fallback branch runs — but its child `from_vecdeque` call (tokenizer.rs,
line 241) diverges in the verbatim loop, so no `TextExtra('|', …)` span is
ever produced; on a lone `|` (scan runs out of characters) the child call
hits the `.unwrap()` panic on the empty queue.  Both are link-incomplete
inputs on which inline lexing fails hard instead of degrading. -/
theorem c5_link_grammar_counterexample :
    InlineLexFails ('|' :: btick :: '_' :: 'a' :: '_' :: 'b' :: '\n' :: [])
    ∧ InlineLexFails ['|'] := by
  constructor
  · intro fuel
    match fuel with
    | 0 => rfl
    | Nat.succ g =>
      have h1 : TextToken.fromVecdeque
            ('|' :: btick :: '_' :: 'a' :: '_' :: 'b' :: '\n' :: []) (Nat.succ g)
          = (TextToken.fromVecdeque (btick :: '_' :: 'a' :: '_' :: 'b' :: '\n' :: []) g).map
              (fun tc => (.textExtra '|' [tc.1], tc.2)) := rfl
      rw [h1, fromVecdeque_stall_all g]
      rfl
  · intro fuel
    match fuel with
    | 0 => rfl
    | Nat.succ g =>
      have h1 : TextToken.fromVecdeque ['|'] (Nat.succ g)
          = (TextToken.fromVecdeque [] g).map
              (fun tc => (.textExtra '|' [tc.1], tc.2)) := rfl
      rw [h1, fromVecdeque_nil]
      rfl

/-- C5 amended: `|Site[open:https://x]|` inline-lexes to the link leaf
`Link{name:"Site", handler:"open", path:"https://x"}`, and
`|Site[open:https://x` with the closer missing before the newline gives the
unterminated fallback `TextExtra('|', …)`, not a link.  In general, when
the lookahead scan fails the leading `|` is never lexed as a link; the
`TextExtra('|', [child])` fallback is produced exactly when the inline
lexing of the remainder itself returns (which it may not — see the
counterexample). -/
theorem c5_link_grammar_amended :
    TextTokens.fromVecdeque "|Site[open:https://x]|".data 64
      = some ([.link "Site" ⟨"open"⟩ "https://x"], [])
    ∧ TextToken.fromVecdeque "|Site[open:https://x\n".data 64
      = some (.textExtra '|' [.text "Site[open:https:"], "//x\n".data)
    ∧ (∀ (cs : List Char) (fl : Nat) (tc : TextToken × List Char),
        linkScan cs false false false = false →
        TextToken.fromVecdeque cs fl = some tc →
        TextToken.fromVecdeque ('|' :: cs) (Nat.succ fl)
          = some (.textExtra '|' [tc.1], tc.2)) := by
  refine ⟨rfl, rfl, fun cs fl tc hscan hchild => ?_⟩
  simp [TextToken.fromVecdeque, hscan, hchild, btick]

/-- Witness for C5 on the scan-failing remainder `x` + newline, whose own
inline lexing returns `Text "x"`. -/
theorem c5_link_grammar_amended_witness :
    linkScan "x\n".data false false false = false
    ∧ TextToken.fromVecdeque ('|' :: "x\n".data) (Nat.succ 1)
        = some (.textExtra '|' [.text "x"], ['\n']) :=
  ⟨rfl, c5_link_grammar_amended.2.2 "x\n".data 1 (.text "x", ['\n']) rfl rfl⟩
